import Mathlib

/-!
# Task server (HW_1/server/server.go): lifecycle of a submitted task

Shallow embedding of the three HTTP handlers of `server.go` and of the
background goroutine that `postHandler` starts, followed by the properties
of the task lifecycle.

Modelling decisions.

* The `Storage` interface is a record of functions over an abstract state
  type `σ`.  `Get` is a query (it returns a value or an error), `Put`,
  `Post` and `Delete` return the next state together with the Go `error`
  (`none` is `nil`).
* Go `error` values are represented by their message.
* Every handler also returns the list of storage operations it performed,
  in order, so that "no storage access" and "no second write" are statements
  about the handler and not about a particular storage.
* The library functions the handlers call (`json.Marshal`, `json.Unmarshal`,
  `uuid.Parse`) are the fields of a `Lib` record; the identifier produced by
  `uuid.New().String()` is an argument of `postHandler`.
* An HTTP response is its status code and a structured body.  `http.Error`
  produces a text body, `json.NewEncoder(w).Encode(map[string]string{k: v})`
  produces a one-entry JSON object; a handler that never calls `WriteHeader`
  answers 200.
* `log.Printf` output and the five second `time.Sleep` are not modelled: the
  goroutine is the function `completion`, and interleavings are sequences of
  steps.
-/

namespace TaskServer

/-! ## Data model -/

/-- The `Task` struct of `server.go`. -/
structure Task where
  ID : String
  Code : String
  Compiler : String
  Status : String
  Result : String
deriving DecidableEq, Repr

/-- The anonymous struct `taskData` that `postHandler` decodes the request body into. -/
structure TaskData where
  Code : String
  Compiler : String
deriving DecidableEq, Repr

/-- The `Storage` interface.  `Get` returns `(*string, error)`: either an
error or a value (a nil error comes with a non-nil pointer); the other three
return an `error` and may change the state. -/
structure Storage (σ : Type) where
  Get : σ → String → Except String String
  Put : σ → String → String → σ × Option String
  Post : σ → String → String → σ × Option String
  Delete : σ → String → σ × Option String

/-- One call on the storage, as recorded by the handlers. -/
inductive StorageOp where
  | get (key : String)
  | put (key : String) (value : String)
deriving DecidableEq, Repr

/-- The library functions used by the handlers. -/
structure Lib where
  /-- Function `json.Marshal` at type `Task`. -/
  marshal : Task → Except String String
  /-- Function `json.Unmarshal` into a fresh `&Task{}`. -/
  unmarshal : String → Except String Task
  /-- Function `json.Unmarshal` into the `taskData` struct. -/
  unmarshalTaskData : String → Except String TaskData
  /-- Function `uuid.Parse`; the handlers discard the parsed value. -/
  uuidParse : String → Except String Unit

/-- Body of an HTTP response. -/
inductive Body where
  | text (msg : String)
  | json (key : String) (value : String)
deriving DecidableEq, Repr

/-- An HTTP response: status code and body. -/
structure Response where
  code : Nat
  body : Body
deriving DecidableEq, Repr

/-- What `postHandler` leaves behind: the response, the storage state, the
storage calls it made and the identifier of the goroutine it started, if any. -/
structure PostOutcome (σ : Type) where
  resp : Response
  state : σ
  ops : List StorageOp
  spawned : Option String

/-- What the background goroutine leaves behind. -/
structure CompletionOutcome (σ : Type) where
  state : σ
  ops : List StorageOp

/-- What a read handler leaves behind (it never calls a mutating operation). -/
structure ReadOutcome where
  resp : Response
  ops : List StorageOp
deriving DecidableEq, Repr

/-- The text written by the goroutine into `task.Result`. -/
def completionResult : String := "Task completed successfully."

/-! ## Handlers -/

/-- The goroutine started by `postHandler` (lines 85-110), after its sleep. -/
def completion {σ : Type} (lib : Lib) (S : Storage σ) (taskID : String) (st : σ) :
    CompletionOutcome σ :=
  match S.Get st taskID with
  | .error _ => ⟨st, [.get taskID]⟩
  | .ok taskStr =>
    match lib.unmarshal taskStr with
    | .error _ => ⟨st, [.get taskID]⟩
    | .ok task =>
      let task1 : Task := ⟨task.ID, task.Code, task.Compiler, "ready", task.Result⟩
      let task2 : Task := ⟨task1.ID, task1.Code, task1.Compiler, task1.Status, completionResult⟩
      match lib.marshal task2 with
      | .error _ => ⟨st, [.get taskID]⟩
      | .ok taskJSON =>
        ⟨(S.Put st taskID taskJSON).1, [.get taskID, .put taskID taskJSON]⟩

/-- Handler `postHandler` (lines 50-116).  `body` is the result of
`io.ReadAll(r.Body)` and `newUUID` the value of `uuid.New().String()`. -/
def postHandler {σ : Type} (lib : Lib) (S : Storage σ) (newUUID : String)
    (body : Except String String) (st : σ) : PostOutcome σ :=
  match body with
  | .error e => ⟨⟨400, .text e⟩, st, [], none⟩
  | .ok b =>
    match lib.unmarshalTaskData b with
    | .error e => ⟨⟨400, .text e⟩, st, [], none⟩
    | .ok taskData =>
      let taskID := newUUID
      let task : Task := ⟨taskID, taskData.Code, taskData.Compiler, "in_progress", ""⟩
      match lib.marshal task with
      | .error e => ⟨⟨500, .text e⟩, st, [], none⟩
      | .ok taskJSON =>
        match (S.Put st taskID taskJSON).2 with
        | some e => ⟨⟨500, .text e⟩, (S.Put st taskID taskJSON).1, [.put taskID taskJSON], none⟩
        | none =>
          ⟨⟨201, .json "task_id" taskID⟩, (S.Put st taskID taskJSON).1,
            [.put taskID taskJSON], some taskID⟩

/-- Handler `getHandlerStatus` (lines 128-148).  `taskID` is
`r.URL.Query().Get("task_id")`, the empty string when the parameter is absent. -/
def getHandlerStatus {σ : Type} (lib : Lib) (S : Storage σ) (taskID : String) (st : σ) :
    ReadOutcome :=
  if taskID = "" then ⟨⟨400, .text "task_id not provided"⟩, []⟩
  else
    match S.Get st taskID with
    | .error e => ⟨⟨404, .text e⟩, [.get taskID]⟩
    | .ok taskStr =>
      match lib.unmarshal taskStr with
      | .error e => ⟨⟨500, .text e⟩, [.get taskID]⟩
      | .ok task => ⟨⟨200, .json "status" task.Status⟩, [.get taskID]⟩

/-- Handler `getHandlerResult` (lines 160-189). -/
def getHandlerResult {σ : Type} (lib : Lib) (S : Storage σ) (taskID : String) (st : σ) :
    ReadOutcome :=
  if taskID = "" then ⟨⟨400, .text "task_id not provided"⟩, []⟩
  else
    match lib.uuidParse taskID with
    | .error _ => ⟨⟨400, .text "Invalid task_id parameter"⟩, []⟩
    | .ok _ =>
      match S.Get st taskID with
      | .error e => ⟨⟨404, .text e⟩, [.get taskID]⟩
      | .ok taskStr =>
        match lib.unmarshal taskStr with
        | .error e => ⟨⟨500, .text e⟩, [.get taskID]⟩
        | .ok task =>
          if task.Status ≠ "ready" then ⟨⟨404, .text "Task is not ready"⟩, [.get taskID]⟩
          else ⟨⟨200, .json "result" task.Result⟩, [.get taskID]⟩

/-! ## Storage contract and reachable states -/

/-- Last-writer-wins per key, no merge (storage contract): after `Put k v`,
whether it reports success or not, `Get` on any key answers what it answered
before, or the key is `k` and `Get` answers `v`. -/
def Storage.Framed {σ : Type} (S : Storage σ) : Prop :=
  ∀ st k v k', S.Get (S.Put st k v).1 k' = S.Get st k' ∨
    (k' = k ∧ S.Get (S.Put st k v).1 k' = .ok v)

/-- A storage state in which no key has a record. -/
def Storage.Empty {σ : Type} (S : Storage σ) (st : σ) : Prop :=
  ∀ k, ∃ e, S.Get st k = .error e

/-- Library facts about `encoding/json` at type `Task`: marshalling a struct
of strings succeeds, and unmarshalling its output gives the struct back. -/
def Lib.RoundTrips (lib : Lib) : Prop :=
  ∀ t, ∃ s, lib.marshal t = .ok s ∧ lib.unmarshal s = .ok t

/-- The operations of the running server on its storage. -/
inductive Step where
  | submit (newUUID : String) (body : Except String String)
  | complete (taskID : String)
  | readStatus (taskID : String)
  | readResult (taskID : String)

/-- A submission is admissible when its identifier is not yet in storage. -/
def Step.Admissible {σ : Type} (S : Storage σ) (st : σ) : Step → Prop
  | .submit newUUID _ => ∃ e, S.Get st newUUID = .error e
  | _ => True

/-- Storage state after one operation. -/
def Step.next {σ : Type} (lib : Lib) (S : Storage σ) (st : σ) : Step → σ
  | .submit newUUID body => (postHandler lib S newUUID body st).state
  | .complete taskID => (completion lib S taskID st).state
  | .readStatus _ => st
  | .readResult _ => st

/-- States reachable from `st0` by submissions with identifiers not yet in
storage and completion steps, in any order and any number; each run of
`postHandler` and each run of the goroutine is one step. -/
inductive Reachable {σ : Type} (lib : Lib) (S : Storage σ) (st0 : σ) : σ → Prop where
  | init : Reachable lib S st0 st0
  | submit (st : σ) (newUUID : String) (body : Except String String) :
      Reachable lib S st0 st → (∃ e, S.Get st newUUID = .error e) →
      Reachable lib S st0 (postHandler lib S newUUID body st).state
  | complete (st : σ) (taskID : String) :
      Reachable lib S st0 st → Reachable lib S st0 (completion lib S taskID st).state

/-- The record invariant: pending with an empty result, or done with the completion text. -/
def Task.Consistent (t : Task) : Prop :=
  (t.Status = "in_progress" ∧ t.Result = "") ∨
    (t.Status = "ready" ∧ t.Result = completionResult)

/-! ## A concrete library and concrete storages

Used to evaluate the handlers on concrete requests. -/

/-- The double quote character. -/
def dq : Char := Char.ofNat 34

/-- The backslash character. -/
def bs : Char := Char.ofNat 92

/-- Body and closing quote of a JSON string: quote and backslash are escaped. -/
def quoteChars : List Char → List Char
  | [] => [dq]
  | c :: cs => if c = dq ∨ c = bs then bs :: c :: quoteChars cs else c :: quoteChars cs

/-- Reads the body of a JSON string up to its closing quote; returns the
decoded characters and the remaining input. -/
def unquoteChars : List Char → Option (List Char × List Char)
  | [] => none
  | [c] => if c = dq then some ([], []) else none
  | c :: d :: rest =>
    if c = dq then some ([], d :: rest)
    else if c = bs then (unquoteChars rest).map fun p => (d :: p.1, p.2)
    else (unquoteChars (d :: rest)).map fun p => (c :: p.1, p.2)

/-- Removes the literal `lit` from the front of the input. -/
def dropLit : List Char → List Char → Option (List Char)
  | [], s => some s
  | _ :: _, [] => none
  | c :: cs, d :: ds => if c = d then dropLit cs ds else none

/-- Field openers of the JSON object that `json.Marshal` produces for a `Task`. -/
def litID : List Char := "\x7b\"id\":\"".data
def litCode : List Char := ",\"code\":\"".data
def litCompiler : List Char := ",\"compiler\":\"".data
def litStatus : List Char := ",\"status\":\"".data
def litResult : List Char := ",\"result\":\"".data
def litClose : List Char := "\x7d".data
def litDataCode : List Char := "\x7b\"code\":\"".data

/-- Encoder in the layout of `json.Marshal` for `Task`. -/
def sampleMarshal (t : Task) : String :=
  String.mk (litID ++ (quoteChars t.ID.data ++ (litCode ++ (quoteChars t.Code.data ++
    (litCompiler ++ (quoteChars t.Compiler.data ++ (litStatus ++ (quoteChars t.Status.data ++
    (litResult ++ (quoteChars t.Result.data ++ litClose))))))))))

/-- Decoder of the layout produced by `sampleMarshal`. -/
def sampleDecode (s : List Char) : Option Task :=
  (dropLit litID s).bind fun r =>
  (unquoteChars r).bind fun p1 =>
  (dropLit litCode p1.2).bind fun r =>
  (unquoteChars r).bind fun p2 =>
  (dropLit litCompiler p2.2).bind fun r =>
  (unquoteChars r).bind fun p3 =>
  (dropLit litStatus p3.2).bind fun r =>
  (unquoteChars r).bind fun p4 =>
  (dropLit litResult p4.2).bind fun r =>
  (unquoteChars r).bind fun p5 =>
  if p5.2 = litClose then
    some ⟨String.mk p1.1, String.mk p2.1, String.mk p3.1, String.mk p4.1, String.mk p5.1⟩
  else none

/-- Decoder of a request body of the form `{"code":"...","compiler":"..."}`. -/
def sampleDecodeData (s : List Char) : Option TaskData :=
  (dropLit litDataCode s).bind fun r =>
  (unquoteChars r).bind fun p1 =>
  (dropLit litCompiler p1.2).bind fun r =>
  (unquoteChars r).bind fun p2 =>
  if p2.2 = litClose then some ⟨String.mk p1.1, String.mk p2.1⟩ else none

/-- Hexadecimal digit. -/
def isHex (c : Char) : Bool :=
  (48 ≤ c.toNat && c.toNat ≤ 57) || (97 ≤ c.toNat && c.toNat ≤ 102) ||
    (65 ≤ c.toNat && c.toNat ≤ 70)

/-- Canonical textual form 8-4-4-4-12 of an identifier, read from position `i`. -/
def canonicalFrom : List Char → Nat → Bool
  | [], i => i == 36
  | c :: cs, i =>
    (if i = 8 ∨ i = 13 ∨ i = 18 ∨ i = 23 then c == '-' else isHex c) && canonicalFrom cs (i + 1)

/-- A library instance: a JSON codec restricted to the layout it writes, and
an identifier check that accepts the canonical 36-character form. -/
def sampleLib : Lib where
  marshal t := .ok (sampleMarshal t)
  unmarshal s :=
    match sampleDecode s.data with
    | some t => .ok t
    | none => .error "invalid JSON"
  unmarshalTaskData s :=
    match sampleDecodeData s.data with
    | some d => .ok d
    | none => .error "invalid JSON"
  uuidParse s := if canonicalFrom s.data 0 then .ok () else .error "invalid UUID"

/-- Lookup in an association list, as the storage `Get`. -/
def mapGet (m : List (String × String)) (k : String) : Except String String :=
  match m.lookup k with
  | some v => .ok v
  | none => .error "key not found"

/-- Removes every entry of key `k`. -/
def mapErase : List (String × String) → String → List (String × String)
  | [], _ => []
  | (a, b) :: ps, k => if a = k then mapErase ps k else (a, b) :: mapErase ps k

/-- Modelled from the spec: the in-memory reference storage (package
`HW/storage`, whose source is not available), a map from key to value with
`Get(key) → value or NotFound`, create-or-replace `Put`, create-only `Post`
and `Delete(key) → success or NotFound`. -/
def mapStorage : Storage (List (String × String)) where
  Get := mapGet
  Put m k v := ((k, v) :: mapErase m k, none)
  Post m k v :=
    match m.lookup k with
    | some _ => (m, some "key already exists")
    | none => ((k, v) :: m, none)
  Delete m k :=
    match m.lookup k with
    | some _ => (mapErase m k, none)
    | none => (m, some "key not found")

/-- A map storage with a budget of writes: the state is the number of writes
still accepted and the map; a write beyond the budget returns an error and
leaves the map as it is. -/
def quotaStorage : Storage (Nat × List (String × String)) where
  Get st k := mapGet st.2 k
  Put st k v :=
    match st.1 with
    | 0 => (st, some "storage is full")
    | n + 1 => ((n, (k, v) :: mapErase st.2 k), none)
  Post st k v :=
    match st.1, st.2.lookup k with
    | 0, _ => (st, some "storage is full")
    | _ + 1, some _ => (st, some "key already exists")
    | n + 1, none => ((n, (k, v) :: st.2), none)
  Delete st k :=
    match st.2.lookup k with
    | some _ => ((st.1, mapErase st.2 k), none)
    | none => (st, some "key not found")

/-- A well-formed identifier used in the examples. -/
def sampleID : String := "00000000-0000-0000-0000-000000000000"

/-- The request body of the scenario in the specification. -/
def sampleBody : String := "\x7b\"code\":\"print(1)\",\"compiler\":\"py\"\x7d"

/-- The record stored by a submission of `sampleBody` under `sampleID`. -/
def samplePending : String :=
  "\x7b\"id\":\"00000000-0000-0000-0000-000000000000\",\"code\":\"print(1)\",\"compiler\":\"py\",\"status\":\"in_progress\",\"result\":\"\"\x7d"

/-- The record written by the completion of that submission. -/
def sampleReady : String :=
  "\x7b\"id\":\"00000000-0000-0000-0000-000000000000\",\"code\":\"print(1)\",\"compiler\":\"py\",\"status\":\"ready\",\"result\":\"Task completed successfully.\"\x7d"

/-! ## Lemmas on the concrete library and storages -/

theorem dq_ne_bs : dq ≠ bs := by decide

theorem dropLit_append (l r : List Char) : dropLit l (l ++ r) = some r := by
  induction l with
  | nil => simp [dropLit]
  | cons c cs ih => simp [dropLit, ih]

theorem unquoteChars_plain (c : Char) (l : List Char) (h1 : c ≠ dq) (h2 : c ≠ bs) :
    unquoteChars (c :: l) = (unquoteChars l).map fun p => (c :: p.1, p.2) := by
  cases l with
  | nil => simp [unquoteChars, h1]
  | cons d rest => simp [unquoteChars, h1, h2]

theorem unquoteChars_escaped (c : Char) (l : List Char) :
    unquoteChars (bs :: c :: l) = (unquoteChars l).map fun p => (c :: p.1, p.2) := by
  simp [unquoteChars, Ne.symm dq_ne_bs]

theorem unquoteChars_close (r : List Char) : unquoteChars (dq :: r) = some ([], r) := by
  cases r <;> simp [unquoteChars]

theorem unquoteChars_quoteChars (s r : List Char) :
    unquoteChars (quoteChars s ++ r) = some (s, r) := by
  induction s with
  | nil => simpa [quoteChars] using unquoteChars_close r
  | cons c cs ih =>
    by_cases h : c = dq ∨ c = bs
    · simp only [quoteChars, if_pos h, List.cons_append]
      rw [unquoteChars_escaped, ih]; rfl
    · have h1 : c ≠ dq := fun e => h (Or.inl e)
      have h2 : c ≠ bs := fun e => h (Or.inr e)
      simp only [quoteChars, if_neg h, List.cons_append]
      rw [unquoteChars_plain c _ h1 h2, ih]; rfl

theorem sampleDecode_sampleMarshal (t : Task) : sampleDecode (sampleMarshal t).data = some t := by
  simp [sampleDecode, sampleMarshal, dropLit_append, unquoteChars_quoteChars]

theorem sampleLib_roundTrips : sampleLib.RoundTrips := by
  intro t
  refine ⟨sampleMarshal t, rfl, ?_⟩
  simp [sampleLib, sampleDecode_sampleMarshal]

theorem lookup_mapErase_ne (m : List (String × String)) (k k' : String) (h : k' ≠ k) :
    (mapErase m k).lookup k' = m.lookup k' := by
  induction m with
  | nil => rfl
  | cons p ps ih =>
    obtain ⟨a, b⟩ := p
    by_cases ha : a = k
    · subst ha
      have hb : (k' == a) = false := by simpa using h
      simp [mapErase, List.lookup, hb, ih]
    · by_cases hk : k' = a
      · subst hk
        simp [mapErase, List.lookup, ha]
      · have hb : (k' == a) = false := by simpa using hk
        simp [mapErase, List.lookup, ha, hb, ih]

theorem mapStorage_put_ok (m : List (String × String)) (k v : String) :
    (mapStorage.Put m k v).2 = none := rfl

theorem mapStorage_get_put (m : List (String × String)) (k v : String) :
    mapStorage.Get (mapStorage.Put m k v).1 k = .ok v := by
  simp [mapStorage, mapGet, List.lookup]

theorem mapStorage_framed : mapStorage.Framed := by
  intro m k v k'
  by_cases h : k' = k
  · right
    subst h
    exact ⟨rfl, mapStorage_get_put m k' v⟩
  · left
    have hb : (k' == k) = false := by simpa using h
    simp [mapStorage, mapGet, List.lookup, hb, lookup_mapErase_ne m k k' h]

theorem mapStorage_empty : mapStorage.Empty [] := fun _ => ⟨"key not found", rfl⟩

theorem quotaStorage_framed : quotaStorage.Framed := by
  intro st k v k'
  obtain ⟨n, m⟩ := st
  cases n with
  | zero => exact Or.inl rfl
  | succ n =>
    by_cases h : k' = k
    · right
      subst h
      exact ⟨rfl, by simp [quotaStorage, mapGet, List.lookup]⟩
    · left
      have hb : (k' == k) = false := by simpa using h
      simp [quotaStorage, mapGet, List.lookup, hb, lookup_mapErase_ne m k k' h]

/-! ## Lemmas on the handlers -/

theorem unmarshal_of_marshal {lib : Lib} (hjson : lib.RoundTrips) {t : Task} {v : String}
    (h : lib.marshal t = .ok v) : lib.unmarshal v = .ok t := by
  obtain ⟨s, hm, hu⟩ := hjson t
  rw [h] at hm
  cases hm
  exact hu

theorem marshal_total {lib : Lib} (hjson : lib.RoundTrips) (t : Task) :
    ∃ v, lib.marshal t = .ok v ∧ lib.unmarshal v = .ok t := hjson t

theorem result_ok_inv {σ : Type} {lib : Lib} {S : Storage σ} {k r : String} {st : σ}
    (h : (getHandlerResult lib S k st).resp = ⟨200, .json "result" r⟩) :
    k ≠ "" ∧ ∃ v t, S.Get st k = .ok v ∧ lib.unmarshal v = .ok t ∧
      t.Status = "ready" ∧ t.Result = r := by
  unfold getHandlerResult at h
  split at h
  · simp at h
  · rename_i hk
    split at h
    · simp at h
    · split at h
      · simp at h
      · rename_i v hv
        split at h
        · simp at h
        · rename_i t ht
          split at h
          · simp at h
          · rename_i hs
            simp at h
            exact ⟨hk, v, t, hv, ht, not_not.mp hs, h⟩

theorem status_ok_inv {σ : Type} {lib : Lib} {S : Storage σ} {k s : String} {st : σ}
    (h : (getHandlerStatus lib S k st).resp = ⟨200, .json "status" s⟩) :
    k ≠ "" ∧ ∃ v t, S.Get st k = .ok v ∧ lib.unmarshal v = .ok t ∧ t.Status = s := by
  unfold getHandlerStatus at h
  split at h
  · simp at h
  · rename_i hk
    split at h
    · simp at h
    · rename_i v hv
      split at h
      · simp at h
      · rename_i t ht
        simp at h
        exact ⟨hk, v, t, hv, ht, h⟩

theorem postHandler_state_cases {σ : Type} (lib : Lib) (S : Storage σ) (newUUID : String)
    (body : Except String String) (st : σ) :
    (postHandler lib S newUUID body st).state = st ∨
    ∃ (td : TaskData) (v : String),
      lib.marshal ⟨newUUID, td.Code, td.Compiler, "in_progress", ""⟩ = .ok v ∧
      (postHandler lib S newUUID body st).state = (S.Put st newUUID v).1 := by
  cases body with
  | error e => exact Or.inl (by simp [postHandler])
  | ok b =>
    cases hd : lib.unmarshalTaskData b with
    | error e => exact Or.inl (by simp [postHandler, hd])
    | ok td =>
      cases hm : lib.marshal ⟨newUUID, td.Code, td.Compiler, "in_progress", ""⟩ with
      | error e => exact Or.inl (by simp [postHandler, hd, hm])
      | ok v =>
        refine Or.inr ⟨td, v, hm, ?_⟩
        cases hp : (S.Put st newUUID v).2 <;> simp [postHandler, hd, hm, hp]

theorem completion_state_cases {σ : Type} (lib : Lib) (S : Storage σ) (T : String) (st : σ) :
    (completion lib S T st).state = st ∨
    ∃ (v : String) (t : Task) (v' : String), S.Get st T = .ok v ∧ lib.unmarshal v = .ok t ∧
      lib.marshal ⟨t.ID, t.Code, t.Compiler, "ready", completionResult⟩ = .ok v' ∧
      (completion lib S T st).state = (S.Put st T v').1 := by
  cases hv : S.Get st T with
  | error e => exact Or.inl (by simp [completion, hv])
  | ok v =>
    cases ht : lib.unmarshal v with
    | error e => exact Or.inl (by simp [completion, hv, ht])
    | ok t =>
      cases hm : lib.marshal ⟨t.ID, t.Code, t.Compiler, "ready", completionResult⟩ with
      | error e => exact Or.inl (by simp [completion, hv, ht, hm])
      | ok v' => exact Or.inr ⟨v, t, v', rfl, ht, hm, by simp [completion, hv, ht, hm]⟩

theorem status_ops_only_get {σ : Type} (lib : Lib) (S : Storage σ) (k : String) (st : σ) :
    (getHandlerStatus lib S k st).ops = [] ∨ (getHandlerStatus lib S k st).ops = [.get k] := by
  unfold getHandlerStatus
  split
  · exact Or.inl rfl
  · split
    · exact Or.inr rfl
    · split <;> exact Or.inr rfl

theorem result_ops_only_get {σ : Type} (lib : Lib) (S : Storage σ) (k : String) (st : σ) :
    (getHandlerResult lib S k st).ops = [] ∨ (getHandlerResult lib S k st).ops = [.get k] := by
  unfold getHandlerResult
  split
  · exact Or.inl rfl
  · split
    · exact Or.inl rfl
    · split
      · exact Or.inr rfl
      · split
        · exact Or.inr rfl
        · split <;> exact Or.inr rfl

theorem ready_ne_in_progress : ("in_progress" : String) ≠ "ready" := by decide

theorem completionResult_ne_empty : completionResult ≠ "" := by decide

/-- Every value stored in a reachable state is the encoding of a consistent record. -/
theorem reachable_stored {σ : Type} {lib : Lib} {S : Storage σ} {st0 st : σ}
    (hS : S.Framed) (h0 : S.Empty st0) (hr : Reachable lib S st0 st) :
    ∀ k v, S.Get st k = .ok v → ∃ t, lib.marshal t = .ok v ∧ t.Consistent := by
  induction hr with
  | init =>
    intro k v hk
    obtain ⟨e, he⟩ := h0 k
    rw [he] at hk
    cases hk
  | submit st newUUID body _ _ ih =>
    intro k v hk
    obtain hst | ⟨td, v0, hm, hst⟩ := postHandler_state_cases lib S newUUID body st
    · rw [hst] at hk
      exact ih k v hk
    · rw [hst] at hk
      obtain hf | ⟨_, hf⟩ := hS st newUUID v0 k
      · rw [hf] at hk
        exact ih k v hk
      · rw [hf] at hk
        cases hk
        exact ⟨_, hm, Or.inl ⟨rfl, rfl⟩⟩
  | complete st T _ ih =>
    intro k v hk
    obtain hst | ⟨v1, t, v', _, _, hm, hst⟩ := completion_state_cases lib S T st
    · rw [hst] at hk
      exact ih k v hk
    · rw [hst] at hk
      obtain hf | ⟨_, hf⟩ := hS st T v' k
      · rw [hf] at hk
        exact ih k v hk
      · rw [hf] at hk
        cases hk
        exact ⟨_, hm, Or.inr ⟨rfl, rfl⟩⟩

theorem reachable_decoded {σ : Type} {lib : Lib} {S : Storage σ} {st0 st : σ}
    (hjson : lib.RoundTrips) (hS : S.Framed) (h0 : S.Empty st0) (hr : Reachable lib S st0 st)
    {k v : String} {t : Task} (hk : S.Get st k = .ok v) (hd : lib.unmarshal v = .ok t) :
    lib.marshal t = .ok v ∧ t.Consistent := by
  obtain ⟨t0, hm, hc⟩ := reachable_stored hS h0 hr k v hk
  have hu := unmarshal_of_marshal hjson hm
  rw [hd] at hu
  cases hu
  exact ⟨hm, hc⟩

/-! ## C1: submission -/

/-- C1: for a request body that parses to (code, compiler), on a storage whose
Put succeeds and whose Get returns the last value Put under a key,
postHandler answers 201 with the generated identifier as task_id and starts
the goroutine for it; its only storage call is one Put under that identifier
of a value that is stored there afterwards and decodes to the record with
that id, the submitted code and compiler, status "in_progress" and an empty
result; getHandlerStatus on that identifier in the resulting state answers
200 with status "in_progress".  The identifier is non-empty, as every value
of uuid.New().String() is. -/
theorem post_then_status_in_progress {σ : Type} (lib : Lib) (S : Storage σ)
    (newUUID b : String) (td : TaskData) (st : σ)
    (hbody : lib.unmarshalTaskData b = .ok td)
    (hjson : lib.RoundTrips)
    (hput : ∀ st k v, (S.Put st k v).2 = none)
    (hget : ∀ st k v, S.Get (S.Put st k v).1 k = .ok v)
    (hid : newUUID ≠ "") :
    (postHandler lib S newUUID (.ok b) st).resp = ⟨201, .json "task_id" newUUID⟩ ∧
    (postHandler lib S newUUID (.ok b) st).spawned = some newUUID ∧
    (∃ v, (postHandler lib S newUUID (.ok b) st).ops = [.put newUUID v] ∧
      S.Get (postHandler lib S newUUID (.ok b) st).state newUUID = .ok v ∧
      lib.unmarshal v = .ok ⟨newUUID, td.Code, td.Compiler, "in_progress", ""⟩) ∧
    getHandlerStatus lib S newUUID (postHandler lib S newUUID (.ok b) st).state =
      ⟨⟨200, .json "status" "in_progress"⟩, [.get newUUID]⟩ := by
  obtain ⟨v, hm, hu⟩ := hjson ⟨newUUID, td.Code, td.Compiler, "in_progress", ""⟩
  have hpost : postHandler lib S newUUID (.ok b) st =
      ⟨⟨201, .json "task_id" newUUID⟩, (S.Put st newUUID v).1, [.put newUUID v],
        some newUUID⟩ := by
    simp [postHandler, hbody, hm, hput]
  rw [hpost]
  refine ⟨rfl, rfl, ⟨v, rfl, hget st newUUID v, hu⟩, ?_⟩
  simp [getHandlerStatus, hid, hget, hu]

/-- Instance of C1 at the scenario of the specification: body
{"code":"print(1)","compiler":"py"} on the empty in-memory storage. -/
theorem post_then_status_in_progress_witness :
    sampleLib.unmarshalTaskData sampleBody = .ok ⟨"print(1)", "py"⟩ ∧
    sampleID ≠ "" ∧
    (postHandler sampleLib mapStorage sampleID (.ok sampleBody) []).resp =
      ⟨201, .json "task_id" sampleID⟩ ∧
    getHandlerStatus sampleLib mapStorage sampleID
        (postHandler sampleLib mapStorage sampleID (.ok sampleBody) []).state =
      ⟨⟨200, .json "status" "in_progress"⟩, [.get sampleID]⟩ :=
  have h := post_then_status_in_progress sampleLib mapStorage sampleID sampleBody
    ⟨"print(1)", "py"⟩ [] rfl sampleLib_roundTrips mapStorage_put_ok mapStorage_get_put
    (by decide)
  ⟨rfl, by decide, h.1, h.2.2.2⟩

/-! ## C2: result of a stored record -/

/-- C2: for a non-empty identifier accepted by uuid.Parse whose stored value
decodes to a Task, getHandlerResult answers 200 exactly when the record's
status is "ready", and then the body is the record's result; otherwise it
answers 404 "Task is not ready"; in particular a record "in_progress" gets
404 and no result. -/
theorem result_success_iff_ready {σ : Type} (lib : Lib) (S : Storage σ)
    (taskID v : String) (u : Unit) (t : Task) (st : σ)
    (hid : taskID ≠ "")
    (hparse : lib.uuidParse taskID = .ok u)
    (hstored : S.Get st taskID = .ok v)
    (hdec : lib.unmarshal v = .ok t) :
    ((getHandlerResult lib S taskID st).resp.code = 200 ↔ t.Status = "ready") ∧
    (t.Status = "ready" →
      (getHandlerResult lib S taskID st).resp = ⟨200, .json "result" t.Result⟩) ∧
    (t.Status ≠ "ready" →
      (getHandlerResult lib S taskID st).resp = ⟨404, .text "Task is not ready"⟩) ∧
    (t.Status = "in_progress" →
      (getHandlerResult lib S taskID st).resp = ⟨404, .text "Task is not ready"⟩) := by
  by_cases hs : t.Status = "ready"
  · have hr : getHandlerResult lib S taskID st =
        ⟨⟨200, .json "result" t.Result⟩, [.get taskID]⟩ := by
      simp [getHandlerResult, hid, hparse, hstored, hdec, hs]
    rw [hr]
    refine ⟨by simp [hs], fun _ => rfl, fun h => absurd hs h, fun h => ?_⟩
    rw [h] at hs
    exact absurd hs (by decide)
  · have hr : getHandlerResult lib S taskID st =
        ⟨⟨404, .text "Task is not ready"⟩, [.get taskID]⟩ := by
      simp [getHandlerResult, hid, hparse, hstored, hdec, hs]
    rw [hr]
    exact ⟨by simp [hs], fun h => absurd h hs, fun _ => rfl, fun _ => rfl⟩

/-- Instance of C2: a pending record under a well-formed identifier. -/
theorem result_success_iff_ready_witness :
    sampleID ≠ "" ∧ sampleLib.uuidParse sampleID = .ok () ∧
    mapStorage.Get [(sampleID, samplePending)] sampleID = .ok samplePending ∧
    sampleLib.unmarshal samplePending =
      .ok ⟨sampleID, "print(1)", "py", "in_progress", ""⟩ ∧
    (getHandlerResult sampleLib mapStorage sampleID [(sampleID, samplePending)]).resp =
      ⟨404, .text "Task is not ready"⟩ :=
  ⟨by decide, rfl, rfl, rfl,
    (result_success_iff_ready sampleLib mapStorage sampleID samplePending ()
      ⟨sampleID, "print(1)", "py", "in_progress", ""⟩ [(sampleID, samplePending)]
      (by decide) rfl rfl rfl).2.2.2 rfl⟩

/-! ## C3: malformed identifiers -/

/-- C3: for the empty task_id and for every task_id rejected by uuid.Parse,
getHandlerResult answers 400 and performs no storage operation: its list of
storage calls is empty and its outcome is the same on every storage and
every storage state. -/
theorem result_invalid_id_no_storage {σ : Type} (lib : Lib) (S : Storage σ)
    (taskID : String) (st : σ)
    (hbad : taskID = "" ∨ ∃ e, lib.uuidParse taskID = .error e) :
    (getHandlerResult lib S taskID st).resp.code = 400 ∧
    (getHandlerResult lib S taskID st).ops = [] ∧
    (∀ (τ : Type) (S' : Storage τ) (st' : τ),
      getHandlerResult lib S' taskID st' = getHandlerResult lib S taskID st) ∧
    (taskID = "" →
      (getHandlerResult lib S taskID st).resp = ⟨400, .text "task_id not provided"⟩) ∧
    (taskID ≠ "" →
      (getHandlerResult lib S taskID st).resp = ⟨400, .text "Invalid task_id parameter"⟩) := by
  by_cases h0 : taskID = ""
  · have hr : ∀ (τ : Type) (S' : Storage τ) (st' : τ), getHandlerResult lib S' taskID st' =
        ⟨⟨400, .text "task_id not provided"⟩, []⟩ := by
      intro τ S' st'
      simp [getHandlerResult, h0]
    rw [hr σ S st]
    exact ⟨rfl, rfl, fun τ S' st' => hr τ S' st', fun _ => rfl, fun h => absurd h0 h⟩
  · obtain h | ⟨e, he⟩ := hbad
    · exact absurd h h0
    · have hr : ∀ (τ : Type) (S' : Storage τ) (st' : τ), getHandlerResult lib S' taskID st' =
          ⟨⟨400, .text "Invalid task_id parameter"⟩, []⟩ := by
        intro τ S' st'
        simp [getHandlerResult, h0, he]
      rw [hr σ S st]
      exact ⟨rfl, rfl, fun τ S' st' => hr τ S' st', fun h => absurd h h0, fun _ => rfl⟩

/-- Instance of C3 at the identifier "not-a-uuid", on a storage that holds a
record under that very key. -/
theorem result_invalid_id_no_storage_witness :
    (∃ e, sampleLib.uuidParse "not-a-uuid" = .error e) ∧
    getHandlerResult sampleLib mapStorage "not-a-uuid" [("not-a-uuid", sampleReady)] =
      ⟨⟨400, .text "Invalid task_id parameter"⟩, []⟩ :=
  have h := result_invalid_id_no_storage sampleLib mapStorage "not-a-uuid"
    [("not-a-uuid", sampleReady)] (Or.inr ⟨"invalid UUID", rfl⟩)
  ⟨⟨"invalid UUID", rfl⟩, by
    have h1 := h.2.2.2.2 (by decide)
    have h2 := h.2.1
    cases hr : getHandlerResult sampleLib mapStorage "not-a-uuid" [("not-a-uuid", sampleReady)]
    rw [hr] at h1 h2
    simp only at h1 h2
    rw [h1, h2]⟩


/-! ## C4: the completion step -/

/-- C4 as stated fails when the storage refuses the goroutine's write.  On a
last-writer-wins map storage that accepts one more write, the scenario's
submission is answered 201 and stores the pending record, which decodes to
a Task; the completion step reads it and attempts to put the completed
record, the Put returns an error, and afterwards getHandlerStatus still
answers "in_progress", not "ready", and getHandlerResult answers 404. -/
theorem completion_put_refused_counterexample :
    quotaStorage.Framed ∧
    (postHandler sampleLib quotaStorage sampleID (.ok sampleBody) (1, [])).resp =
      ⟨201, .json "task_id" sampleID⟩ ∧
    (postHandler sampleLib quotaStorage sampleID (.ok sampleBody) (1, [])).spawned =
      some sampleID ∧
    (postHandler sampleLib quotaStorage sampleID (.ok sampleBody) (1, [])).state =
      (0, [(sampleID, samplePending)]) ∧
    quotaStorage.Get (0, [(sampleID, samplePending)]) sampleID = .ok samplePending ∧
    sampleLib.unmarshal samplePending =
      .ok ⟨sampleID, "print(1)", "py", "in_progress", ""⟩ ∧
    sampleLib.uuidParse sampleID = .ok () ∧
    (completion sampleLib quotaStorage sampleID (0, [(sampleID, samplePending)])).ops =
      [.get sampleID, .put sampleID sampleReady] ∧
    (quotaStorage.Put (0, [(sampleID, samplePending)]) sampleID sampleReady).2 =
      some "storage is full" ∧
    (getHandlerStatus sampleLib quotaStorage sampleID
      (completion sampleLib quotaStorage sampleID (0, [(sampleID, samplePending)])).state).resp =
      ⟨200, .json "status" "in_progress"⟩ ∧
    (getHandlerStatus sampleLib quotaStorage sampleID
      (completion sampleLib quotaStorage sampleID (0, [(sampleID, samplePending)])).state).resp ≠
      ⟨200, .json "status" "ready"⟩ ∧
    (getHandlerResult sampleLib quotaStorage sampleID
      (completion sampleLib quotaStorage sampleID (0, [(sampleID, samplePending)])).state).resp =
      ⟨404, .text "Task is not ready"⟩ := by
  refine ⟨quotaStorage_framed, ?_, rfl, ?_, rfl, rfl, rfl, ?_, rfl, ?_, ?_, ?_⟩ <;> decide

/-- C4 (amended): for every value stored under a key T that decodes to a
Task, on any storage, the completion step reads T and then calls Put under
the same key T with the encoding of the record that has the same id, code
and compiler, status "ready" and result "Task completed successfully.", and
leaves the state that Put left.  If the storage keeps that write, that is,
Get on T after the Put returns the value put, and T is non-empty, then
getHandlerStatus on T answers 200 with status "ready" and, when uuid.Parse
accepts T, getHandlerResult on T answers 200 with that fixed text, whatever
the code and compiler of the record. -/
theorem completion_marks_ready {σ : Type} (lib : Lib) (S : Storage σ)
    (T v : String) (t : Task) (st : σ)
    (hjson : lib.RoundTrips)
    (hstored : S.Get st T = .ok v)
    (hdec : lib.unmarshal v = .ok t) :
    ∃ v', (completion lib S T st).ops = [.get T, .put T v'] ∧
      (completion lib S T st).state = (S.Put st T v').1 ∧
      lib.marshal ⟨t.ID, t.Code, t.Compiler, "ready", completionResult⟩ = .ok v' ∧
      lib.unmarshal v' = .ok ⟨t.ID, t.Code, t.Compiler, "ready", completionResult⟩ ∧
      (S.Get (S.Put st T v').1 T = .ok v' → T ≠ "" →
        getHandlerStatus lib S T (completion lib S T st).state =
          ⟨⟨200, .json "status" "ready"⟩, [.get T]⟩ ∧
        (∀ u, lib.uuidParse T = .ok u →
          getHandlerResult lib S T (completion lib S T st).state =
            ⟨⟨200, .json "result" completionResult⟩, [.get T]⟩)) := by
  obtain ⟨v', hm, hu⟩ := hjson ⟨t.ID, t.Code, t.Compiler, "ready", completionResult⟩
  have hc : completion lib S T st = ⟨(S.Put st T v').1, [.get T, .put T v']⟩ := by
    simp [completion, hstored, hdec, hm]
  rw [hc]
  refine ⟨v', rfl, rfl, hm, hu, fun hkept hid => ⟨?_, fun u hp => ?_⟩⟩
  · simp [getHandlerStatus, hid, hkept, hu]
  · simp [getHandlerResult, hid, hp, hkept, hu]

/-- Instance of the amended C4: completion of the pending record of the
scenario on the in-memory storage, which keeps the write. -/
theorem completion_marks_ready_witness :
    sampleLib.RoundTrips ∧
    mapStorage.Get [(sampleID, samplePending)] sampleID = .ok samplePending ∧
    sampleLib.unmarshal samplePending =
      .ok ⟨sampleID, "print(1)", "py", "in_progress", ""⟩ ∧
    (completion sampleLib mapStorage sampleID [(sampleID, samplePending)]).ops =
      [.get sampleID, .put sampleID sampleReady] ∧
    getHandlerStatus sampleLib mapStorage sampleID
        (completion sampleLib mapStorage sampleID [(sampleID, samplePending)]).state =
      ⟨⟨200, .json "status" "ready"⟩, [.get sampleID]⟩ ∧
    getHandlerResult sampleLib mapStorage sampleID
        (completion sampleLib mapStorage sampleID [(sampleID, samplePending)]).state =
      ⟨⟨200, .json "result" "Task completed successfully."⟩, [.get sampleID]⟩ := by
  obtain ⟨v', hops, _, hm, _, hreads⟩ :=
    completion_marks_ready sampleLib mapStorage sampleID samplePending
      ⟨sampleID, "print(1)", "py", "in_progress", ""⟩ [(sampleID, samplePending)]
      sampleLib_roundTrips rfl rfl
  have hv : v' = sampleReady := by
    have h : Except.ok (ε := String) sampleReady = Except.ok v' := hm
    cases h
    rfl
  subst hv
  have h := hreads (mapStorage_get_put _ _ _) (by decide)
  exact ⟨sampleLib_roundTrips, rfl, rfl, hops, h.1, h.2 () rfl⟩

/-! ## C7: unknown identifiers -/

/-- C7: for a non-empty identifier on which storage Get reports an error,
getHandlerStatus answers 404 with the storage's message, and so does
getHandlerResult when uuid.Parse accepts the identifier. -/
theorem unknown_id_not_found {σ : Type} (lib : Lib) (S : Storage σ)
    (taskID e : String) (st : σ)
    (hid : taskID ≠ "")
    (habsent : S.Get st taskID = .error e) :
    getHandlerStatus lib S taskID st = ⟨⟨404, .text e⟩, [.get taskID]⟩ ∧
    (∀ u, lib.uuidParse taskID = .ok u →
      getHandlerResult lib S taskID st = ⟨⟨404, .text e⟩, [.get taskID]⟩) := by
  refine ⟨?_, fun u hp => ?_⟩
  · simp [getHandlerStatus, hid, habsent]
  · simp [getHandlerResult, hid, hp, habsent]

/-- Instance of C7: the all-zero identifier on the empty in-memory storage. -/
theorem unknown_id_not_found_witness :
    sampleID ≠ "" ∧ mapStorage.Get [] sampleID = .error "key not found" ∧
    sampleLib.uuidParse sampleID = .ok () ∧
    (getHandlerStatus sampleLib mapStorage sampleID []).resp.code = 404 ∧
    (getHandlerResult sampleLib mapStorage sampleID []).resp.code = 404 :=
  have h := unknown_id_not_found sampleLib mapStorage sampleID "key not found" []
    (by decide) rfl
  ⟨by decide, rfl, rfl, by rw [h.1], by rw [h.2 () rfl]⟩

/-! ## C8: undecodable records -/

/-- C8 as stated fails: for the well-formed all-zero identifier whose stored
value "garbage" cannot be decoded, getHandlerResult answers 500, while for
the same identifier absent from storage it answers 404. -/
theorem result_undecodable_counterexample :
    sampleID ≠ "" ∧ sampleLib.uuidParse sampleID = .ok () ∧
    mapStorage.Get [(sampleID, "garbage")] sampleID = .ok "garbage" ∧
    sampleLib.unmarshal "garbage" = .error "invalid JSON" ∧
    getHandlerResult sampleLib mapStorage sampleID [(sampleID, "garbage")] =
      ⟨⟨500, .text "invalid JSON"⟩, [.get sampleID]⟩ ∧
    getHandlerResult sampleLib mapStorage sampleID [] =
      ⟨⟨404, .text "key not found"⟩, [.get sampleID]⟩ ∧
    (getHandlerResult sampleLib mapStorage sampleID [(sampleID, "garbage")]).resp.code ≠
      (getHandlerResult sampleLib mapStorage sampleID []).resp.code := by
  refine ⟨?_, rfl, rfl, rfl, ?_, ?_, ?_⟩ <;> decide

/-- C8 (amended): for a non-empty identifier accepted by uuid.Parse whose
stored value cannot be decoded into a Task, getHandlerResult answers 500
with the decoder's message, which is not the 404 of an absent record. -/
theorem result_undecodable_server_error {σ : Type} (lib : Lib) (S : Storage σ)
    (taskID v e : String) (u : Unit) (st : σ)
    (hid : taskID ≠ "")
    (hparse : lib.uuidParse taskID = .ok u)
    (hstored : S.Get st taskID = .ok v)
    (hdec : lib.unmarshal v = .error e) :
    getHandlerResult lib S taskID st = ⟨⟨500, .text e⟩, [.get taskID]⟩ ∧
    (getHandlerResult lib S taskID st).resp.code ≠ 404 := by
  have hr : getHandlerResult lib S taskID st = ⟨⟨500, .text e⟩, [.get taskID]⟩ := by
    simp [getHandlerResult, hid, hparse, hstored, hdec]
  rw [hr]
  exact ⟨rfl, by simp⟩

/-- Instance of the amended C8: the value "garbage" under the all-zero identifier. -/
theorem result_undecodable_server_error_witness :
    sampleID ≠ "" ∧ sampleLib.uuidParse sampleID = .ok () ∧
    mapStorage.Get [(sampleID, "garbage")] sampleID = .ok "garbage" ∧
    sampleLib.unmarshal "garbage" = .error "invalid JSON" ∧
    (getHandlerResult sampleLib mapStorage sampleID [(sampleID, "garbage")]).resp.code ≠ 404 :=
  ⟨by decide, rfl, rfl, rfl,
    (result_undecodable_server_error sampleLib mapStorage sampleID "garbage" "invalid JSON" ()
      [(sampleID, "garbage")] (by decide) rfl rfl rfl).2⟩

/-! ## C9: failed write at submission -/

/-- C9: when the request body parses, the record is encoded and the storage
Put returns an error, postHandler answers 500 with the error text (no
task_id), starts no goroutine, and its only storage call is that one Put;
the state it leaves is the one the failed Put left. -/
theorem post_put_failure {σ : Type} (lib : Lib) (S : Storage σ)
    (newUUID b v e : String) (td : TaskData) (st : σ)
    (hbody : lib.unmarshalTaskData b = .ok td)
    (hm : lib.marshal ⟨newUUID, td.Code, td.Compiler, "in_progress", ""⟩ = .ok v)
    (hfail : (S.Put st newUUID v).2 = some e) :
    (postHandler lib S newUUID (.ok b) st).resp = ⟨500, .text e⟩ ∧
    (postHandler lib S newUUID (.ok b) st).spawned = none ∧
    (postHandler lib S newUUID (.ok b) st).ops = [.put newUUID v] ∧
    (postHandler lib S newUUID (.ok b) st).state = (S.Put st newUUID v).1 := by
  have hpost : postHandler lib S newUUID (.ok b) st =
      ⟨⟨500, .text e⟩, (S.Put st newUUID v).1, [.put newUUID v], none⟩ := by
    simp [postHandler, hbody, hm, hfail]
  rw [hpost]
  exact ⟨rfl, rfl, rfl, rfl⟩

/-- Instance of C9: the scenario's submission on a storage whose write budget is spent. -/
theorem post_put_failure_witness :
    sampleLib.unmarshalTaskData sampleBody = .ok ⟨"print(1)", "py"⟩ ∧
    sampleLib.marshal ⟨sampleID, "print(1)", "py", "in_progress", ""⟩ = .ok samplePending ∧
    (quotaStorage.Put (0, []) sampleID samplePending).2 = some "storage is full" ∧
    (postHandler sampleLib quotaStorage sampleID (.ok sampleBody) (0, [])).resp =
      ⟨500, .text "storage is full"⟩ ∧
    (postHandler sampleLib quotaStorage sampleID (.ok sampleBody) (0, [])).spawned = none ∧
    (postHandler sampleLib quotaStorage sampleID (.ok sampleBody) (0, [])).ops =
      [.put sampleID samplePending] :=
  have h := post_put_failure sampleLib quotaStorage sampleID sampleBody samplePending
    "storage is full" ⟨"print(1)", "py"⟩ (0, []) rfl rfl rfl
  ⟨rfl, rfl, rfl, h.1, h.2.1, h.2.2.1⟩

/-! ## C10: failed completion -/

/-- C10: if at completion time Get on T returns an error, or the value it
returns cannot be decoded into a Task, the completion step makes exactly one
storage call, that Get, and no Put: the storage state is the one it started
from, so Get answers on every key what it answered before. -/
theorem completion_failure_no_write {σ : Type} (lib : Lib) (S : Storage σ)
    (T : String) (st : σ)
    (hfail : (∃ e, S.Get st T = .error e) ∨
      (∃ v e, S.Get st T = .ok v ∧ lib.unmarshal v = .error e)) :
    (completion lib S T st).ops = [.get T] ∧
    (completion lib S T st).state = st ∧
    (∀ k, S.Get (completion lib S T st).state k = S.Get st k) := by
  have hc : completion lib S T st = ⟨st, [.get T]⟩ := by
    obtain ⟨e, he⟩ | ⟨v, e, hv, he⟩ := hfail
    · simp [completion, he]
    · simp [completion, hv, he]
  rw [hc]
  exact ⟨rfl, rfl, fun _ => rfl⟩

/-- Instance of C10: an undecodable value under the all-zero identifier stays as it is. -/
theorem completion_failure_no_write_witness :
    mapStorage.Get [(sampleID, "garbage")] sampleID = .ok "garbage" ∧
    sampleLib.unmarshal "garbage" = .error "invalid JSON" ∧
    (completion sampleLib mapStorage sampleID [(sampleID, "garbage")]).ops = [.get sampleID] ∧
    (completion sampleLib mapStorage sampleID [(sampleID, "garbage")]).state =
      [(sampleID, "garbage")] :=
  have h := completion_failure_no_write sampleLib mapStorage sampleID [(sampleID, "garbage")]
    (Or.inr ⟨"garbage", "invalid JSON", rfl, rfl⟩)
  ⟨rfl, rfl, h.1, h.2.1⟩

/-! ## C5: the record invariant -/

/-- C5: on a storage with per-key last-writer-wins Put, in every state
reachable from an empty storage by submissions (each with an identifier not
yet in storage) and completion steps in any order, every stored value that
decodes to a record has status "in_progress" and an empty result, or status
"ready" and the non-empty completion text as result.  Hence a result read
that answers 200 returns the completion text and a status read then answers
"ready"; and when a status read answers "ready", a result read on the same
well-formed identifier answers 200 with the completion text. -/
theorem reachable_records_consistent {σ : Type} (lib : Lib) (S : Storage σ) (st0 st : σ)
    (hjson : lib.RoundTrips) (hS : S.Framed) (h0 : S.Empty st0)
    (hr : Reachable lib S st0 st) :
    (∀ k v t, S.Get st k = .ok v → lib.unmarshal v = .ok t →
      (t.Status = "in_progress" ∧ t.Result = "") ∨
      (t.Status = "ready" ∧ t.Result = completionResult ∧ t.Result ≠ "")) ∧
    (∀ k r, (getHandlerResult lib S k st).resp = ⟨200, .json "result" r⟩ →
      r = completionResult ∧
      (getHandlerStatus lib S k st).resp = ⟨200, .json "status" "ready"⟩) ∧
    (∀ k u, lib.uuidParse k = .ok u →
      (getHandlerStatus lib S k st).resp = ⟨200, .json "status" "ready"⟩ →
      (getHandlerResult lib S k st).resp = ⟨200, .json "result" completionResult⟩) := by
  refine ⟨fun k v t hk hd => ?_, fun k r h => ?_, fun k u hp h => ?_⟩
  · obtain ⟨_, hc⟩ := reachable_decoded hjson hS h0 hr hk hd
    obtain ⟨h1, h2⟩ | ⟨h1, h2⟩ := hc
    · exact Or.inl ⟨h1, h2⟩
    · exact Or.inr ⟨h1, h2, by rw [h2]; exact completionResult_ne_empty⟩
  · obtain ⟨hne, v, t, hk, hd, hs, hres⟩ := result_ok_inv h
    obtain ⟨_, hc⟩ := reachable_decoded hjson hS h0 hr hk hd
    refine ⟨?_, by simp [getHandlerStatus, hne, hk, hd, hs]⟩
    obtain ⟨h1, _⟩ | ⟨_, h2⟩ := hc
    · rw [hs] at h1
      exact absurd h1.symm ready_ne_in_progress
    · rw [← hres, h2]
  · obtain ⟨hne, v, t, hk, hd, hs⟩ := status_ok_inv h
    obtain ⟨_, hc⟩ := reachable_decoded hjson hS h0 hr hk hd
    obtain ⟨h1, _⟩ | ⟨_, h2⟩ := hc
    · rw [hs] at h1
      exact absurd h1.symm ready_ne_in_progress
    · simp [getHandlerResult, hne, hp, hk, hd, hs, h2]

/-- Instance of C5: the in-memory storage after the scenario's submission and
its completion. -/
theorem reachable_records_consistent_witness :
    sampleLib.RoundTrips ∧ mapStorage.Framed ∧ mapStorage.Empty [] ∧
    Reachable sampleLib mapStorage [] [(sampleID, sampleReady)] ∧
    (getHandlerResult sampleLib mapStorage sampleID [(sampleID, sampleReady)]).resp =
      ⟨200, .json "result" completionResult⟩ :=
  have hr : Reachable sampleLib mapStorage [] [(sampleID, sampleReady)] :=
    Reachable.complete _ sampleID
      (Reachable.submit [] sampleID (.ok sampleBody) Reachable.init ⟨"key not found", rfl⟩)
  ⟨sampleLib_roundTrips, mapStorage_framed, mapStorage_empty, hr,
    (reachable_records_consistent sampleLib mapStorage [] [(sampleID, sampleReady)]
      sampleLib_roundTrips mapStorage_framed mapStorage_empty hr).2.2 sampleID () rfl
      (by decide)⟩

/-! ## C6: completed records do not change -/

/-- C6: on a storage with per-key last-writer-wins Put, in every state
reachable from an empty storage, for every step (a submission with an
identifier not yet in storage, a completion step for any identifier, a
status read, a result read): a stored record that is "ready" before the step
is stored with the same value after it; any stored record is either stored
unchanged after the step or was "in_progress" and is now the record with the
same id, code and compiler, status "ready" and the completion text; the
completion step applied to a "ready" record puts back the very value it
read; and the two read handlers call nothing on the storage but Get. -/
theorem ready_records_immutable {σ : Type} (lib : Lib) (S : Storage σ) (st0 st : σ)
    (step : Step)
    (hjson : lib.RoundTrips) (hS : S.Framed) (h0 : S.Empty st0)
    (hr : Reachable lib S st0 st) (hadm : step.Admissible S st) :
    (∀ k v t, S.Get st k = .ok v → lib.unmarshal v = .ok t → t.Status = "ready" →
      S.Get (step.next lib S st) k = .ok v) ∧
    (∀ k v t, S.Get st k = .ok v → lib.unmarshal v = .ok t →
      S.Get (step.next lib S st) k = .ok v ∨
      (t.Status = "in_progress" ∧ ∃ v', S.Get (step.next lib S st) k = .ok v' ∧
        lib.unmarshal v' = .ok ⟨t.ID, t.Code, t.Compiler, "ready", completionResult⟩)) ∧
    (∀ k v t, S.Get st k = .ok v → lib.unmarshal v = .ok t → t.Status = "ready" →
      (completion lib S k st).ops = [.get k, .put k v] ∧
      S.Get (completion lib S k st).state k = .ok v) ∧
    (∀ k op, op ∈ (getHandlerStatus lib S k st).ops ∨ op ∈ (getHandlerResult lib S k st).ops →
      op = .get k) := by
  have hready : ∀ k v t, S.Get st k = .ok v → lib.unmarshal v = .ok t → t.Status = "ready" →
      lib.marshal ⟨t.ID, t.Code, t.Compiler, "ready", completionResult⟩ = .ok v := by
    intro k v t hk hd hs
    obtain ⟨hm, hc⟩ := reachable_decoded hjson hS h0 hr hk hd
    obtain ⟨h1, _⟩ | ⟨_, h2⟩ := hc
    · rw [hs] at h1
      exact absurd h1.symm ready_ne_in_progress
    · rw [← hs, ← h2]
      exact hm
  have hstep : ∀ k v t, S.Get st k = .ok v → lib.unmarshal v = .ok t →
      S.Get (step.next lib S st) k = .ok v ∨
      (t.Status = "in_progress" ∧ ∃ v', S.Get (step.next lib S st) k = .ok v' ∧
        lib.unmarshal v' = .ok ⟨t.ID, t.Code, t.Compiler, "ready", completionResult⟩) := by
    intro k v t hk hd
    cases step with
    | readStatus T => exact Or.inl hk
    | readResult T => exact Or.inl hk
    | submit newUUID body =>
      obtain ⟨e, he⟩ := hadm
      simp only [Step.next]
      obtain hst | ⟨td, v0, _, hst⟩ := postHandler_state_cases lib S newUUID body st
      · rw [hst]
        exact Or.inl hk
      · rw [hst]
        obtain hf | ⟨hkk, _⟩ := hS st newUUID v0 k
        · rw [hf]
          exact Or.inl hk
        · rw [hkk, he] at hk
          cases hk
    | complete T =>
      simp only [Step.next]
      obtain hst | ⟨v1, t1, v', hk1, hd1, hm, hst⟩ := completion_state_cases lib S T st
      · rw [hst]
        exact Or.inl hk
      · rw [hst]
        obtain hf | ⟨hkk, hf⟩ := hS st T v' k
        · rw [hf]
          exact Or.inl hk
        · subst hkk
          rw [hk] at hk1
          cases hk1
          rw [hd] at hd1
          cases hd1
          obtain ⟨_, hc⟩ := reachable_decoded hjson hS h0 hr hk hd
          obtain ⟨h1, _⟩ | ⟨h1, _⟩ := hc
          · exact Or.inr ⟨h1, v', hf, unmarshal_of_marshal hjson hm⟩
          · have hm' := hready k v t hk hd h1
            rw [hm] at hm'
            cases hm'
            exact Or.inl hf
  refine ⟨fun k v t hk hd hs => ?_, hstep, fun k v t hk hd hs => ?_, fun k op hop => ?_⟩
  rotate_right
  · obtain h | h := hop
    · obtain h1 | h1 := status_ops_only_get lib S k st <;> rw [h1] at h <;> simp at h
      exact h
    · obtain h1 | h1 := result_ops_only_get lib S k st <;> rw [h1] at h <;> simp at h
      exact h
  · obtain h | ⟨h1, _⟩ := hstep k v t hk hd
    · exact h
    · rw [hs] at h1
      exact absurd h1.symm ready_ne_in_progress
  · have hm := hready k v t hk hd hs
    have hc : completion lib S k st = ⟨(S.Put st k v).1, [.get k, .put k v]⟩ := by
      simp [completion, hk, hd, hm]
    rw [hc]
    refine ⟨rfl, ?_⟩
    obtain hf | ⟨_, hf⟩ := hS st k v k
    · rw [hf]
      exact hk
    · exact hf

/-- Instance of C6: a second completion step on the completed record of the scenario. -/
theorem ready_records_immutable_witness :
    sampleLib.RoundTrips ∧ mapStorage.Framed ∧ mapStorage.Empty [] ∧
    Reachable sampleLib mapStorage [] [(sampleID, sampleReady)] ∧
    (Step.complete sampleID).Admissible mapStorage [(sampleID, sampleReady)] ∧
    mapStorage.Get ((Step.complete sampleID).next sampleLib mapStorage
      [(sampleID, sampleReady)]) sampleID = .ok sampleReady :=
  have hr : Reachable sampleLib mapStorage [] [(sampleID, sampleReady)] :=
    Reachable.complete _ sampleID
      (Reachable.submit [] sampleID (.ok sampleBody) Reachable.init ⟨"key not found", rfl⟩)
  ⟨sampleLib_roundTrips, mapStorage_framed, mapStorage_empty, hr, trivial,
    (ready_records_immutable sampleLib mapStorage [] [(sampleID, sampleReady)]
      (Step.complete sampleID) sampleLib_roundTrips mapStorage_framed mapStorage_empty hr
      trivial).1 sampleID sampleReady
      ⟨sampleID, "print(1)", "py", "ready", "Task completed successfully."⟩ rfl rfl rfl⟩

end TaskServer
